import Mathlib

/-!
Verification of the Pocketbase-Sync pipeline against its specification.

The definitions below are a shallow embedding of the Python sources:
`pb.py` (the Excel → PocketBase sync driver), `item.py` (column resolution
and relation splitting), `update.py` (relation-list merging over a JSON
export), `gps.py` and `towns.py` (geocoding enrichment).  Pure helper
functions become Lean functions; the row loop of `pb.py` becomes an
explicit state-passing fold over an abstract record store; HTTP traffic
is recorded as a trace of effects, and HTTP failures are injected through
an explicit per-row failure specification.
-/

namespace PbSync

/-! ## Column resolver (`_norm_col` / `_pick_col`, pb.py 21-31, item.py 31-41) -/

/-- Character-level model of Python `str.strip` on a list of characters. -/
def trimChars (l : List Char) : List Char :=
  ((l.dropWhile Char.isWhitespace).reverse.dropWhile Char.isWhitespace).reverse

/-- Model of Python `str.strip` as a String-to-String function. -/
def pyStrip (s : String) : String :=
  String.mk (trimChars s.data)

/-- Embeds `_norm_col`: `re.sub(r"[^a-z0-9]", "", str(name).strip().lower())`.
Strips surrounding whitespace, lower-cases, then keeps only `a`-`z` and `0`-`9`. -/
def _norm_col (name : String) : String :=
  String.mk (((trimChars name.data).map Char.toLower).filter (fun c => c.isLower || c.isDigit))

/-- Python-dict lookup where the last insertion with a given key wins,
embedding the comprehension `{_norm_col(c): c for c in df.columns}`. -/
def dictFind (m : List (String × String)) (k : String) : Option String :=
  match m.reverse.find? (fun p => p.1 == k) with
  | some p => some p.2
  | none => none

/-- The normal-form index built by `_pick_col` over the source columns. -/
def normIndex (cols : List String) : List (String × String) :=
  cols.map (fun c => (_norm_col c, c))

/-- Embeds `_pick_col(df, candidates)`: returns the raw column whose normal
form matches the first candidate (in preference order) that has a match. -/
def _pick_col (cols : List String) (candidates : List String) : Option String :=
  match candidates with
  | [] => none
  | cand :: rest =>
    match dictFind (normIndex cols) (_norm_col cand) with
    | some c => some c
    | none => _pick_col cols rest

/-! ## Relation splitting (`_split_relations`, item.py 69-76) -/

/-- The delimiter class of `re.split(r"[,;\n\t]+", s)`. -/
def isRelDelim (c : Char) : Bool :=
  c == ',' || c == ';' || c == '\n' || c == '\t'

/-- Splits a character list at every delimiter character.  The regex in the
source splits on runs of delimiters; splitting at single delimiters instead
produces extra empty parts, which the caller's non-empty filter removes, so
the observable result is identical. -/
def splitParts (p : Char → Bool) : List Char → List (List Char)
  | [] => [[]]
  | c :: cs =>
    if p c then [] :: splitParts p cs
    else
      match splitParts p cs with
      | [] => [[c]]
      | t :: ts => (c :: t) :: ts

/-- Embeds `_split_relations`: `None`/`NaN` becomes `none`; otherwise the
string is stripped, split on the delimiter class, each part stripped, and
empty parts dropped.  The source performs no deduplication. -/
def _split_relations (val : Option String) : List String :=
  match val with
  | none => []
  | some v =>
    let s := trimChars v.data
    if s = [] then []
    else (((splitParts isRelDelim s).map trimChars).filter (fun p => p ≠ [])).map String.mk

/-! ## JSON values and relation-list coercion (`_as_list`, update.py 51-57;
`current_form` normalization, pb.py 156-158) -/

/-- A JSON scalar as stored in a PocketBase record field. -/
inductive JScalar where
  | null
  | str (s : String)
  | num (n : Int)
  | bool (b : Bool)
deriving Repr, DecidableEq

/-- A PocketBase record field value: a scalar or a flat array of scalars
(relation fields hold arrays of record-id strings; nesting does not occur
in the store's data model). -/
inductive JsonVal where
  | scalar (v : JScalar)
  | arr (elems : List JScalar)
deriving Repr, DecidableEq

/-- Python `str(v)` on a JSON scalar. -/
def pyStrScalar : JScalar → String
  | .null => "None"
  | .str s => s
  | .num n => toString n
  | .bool b => if b then "True" else "False"

/-- Python `str(v)` on a JSON value.  Array rendering is approximated by
bracketed comma separation; no claim depends on the exact rendering of an
array, only on its non-blankness. -/
def pyStr : JsonVal → String
  | .scalar v => pyStrScalar v
  | .arr es => "[" ++ String.intercalate ", " (es.map pyStrScalar) ++ "]"

/-- Python truthiness of a JSON value, as used by `rec.get("Form") or []`. -/
def pyTruthy : JsonVal → Bool
  | .scalar .null => false
  | .scalar (.str s) => s != ""
  | .scalar (.num n) => n != 0
  | .scalar (.bool b) => b
  | .arr es => !es.isEmpty

/-- Embeds `_as_list` (update.py 51-57): `None` gives `[]`; a list keeps its
elements stringified, filtered to those whose strip is non-empty (elements
themselves are not stripped); any other value is stringified and stripped,
giving a singleton when non-blank and `[]` when blank. -/
def _as_list : JsonVal → List String
  | .scalar .null => []
  | .arr es => (es.map pyStrScalar).filter (fun s => pyStrip s != "")
  | .scalar v =>
    if pyStrip (pyStrScalar v) = "" then [] else [pyStrip (pyStrScalar v)]

/-- Embeds pb.py 156-158: `current_form = rec.get("Form") or []` followed by
wrapping a non-list value into a one-element list.  A falsy field value
(`null`, empty string, `0`, `False`, empty list) collapses to `[]` before
the wrap. -/
def pbFormList (formVal : JsonVal) : List JScalar :=
  let cf := if pyTruthy formVal then formVal else .arr []
  match cf with
  | .arr es => es
  | .scalar v => [v]

/-! ## Relation merge (pb.py 159-163, update.py 112-118) -/

/-- Embeds the merge decision shared by pb.py and update.py: if the target
relation id is already in the current list nothing is written; otherwise
the new list is the current list with the id appended at the end. -/
def mergeRelation (currentForm : List String) (relId : String) : Option (List String) :=
  if relId ∈ currentForm then none else some (currentForm ++ [relId])

/-- The merge step of update.py 111-118 on a raw `Form` field value. -/
def updateMergeStep (formVal : JsonVal) (addId : String) : Option (List String) :=
  mergeRelation (_as_list formVal) addId

/-! ## Geocoding (`get_coordinates`, gps.py 61-82;
`get_district_from_gmaps`, towns.py 67-88) -/

/-- The location object inside a geocoding result entry. -/
structure GeoLocation where
  lat : Int
  lng : Int
deriving Repr, DecidableEq

/-- One entry of the provider's `address_components` list. -/
structure AddrComponent where
  longName : String
  types : List String
deriving Repr, DecidableEq

/-- One entry of the provider's `results` list. -/
structure GeoResultEntry where
  location : GeoLocation
  addressComponents : List AddrComponent
deriving Repr, DecidableEq

/-- The JSON body of a geocoding response. -/
structure GeoBody where
  status : String
  results : List GeoResultEntry
deriving Repr, DecidableEq

/-- The outcome of one HTTP request to the geocoding provider: either a
transport-level exception or a response with a status code and body. -/
inductive GeoResponse where
  | transportError
  | http (statusCode : Nat) (body : GeoBody)
deriving Repr, DecidableEq

/-- Embeds `get_coordinates` (gps.py 61-82).  The Python function returns a
pair whose components may independently be `None`, so the return type keeps
the two coordinates separately optional.  `data['results'][0]` on an empty
`results` list would raise an uncaught `IndexError`, modelled as `.error`. -/
def get_coordinates (resp : GeoResponse) : Except String (Option Int × Option Int) :=
  match resp with
  | .transportError => .ok (none, none)
  | .http code body =>
    if code = 200 then
      if body.status = "OK" then
        match body.results with
        | [] => .error "IndexError"
        | e :: _ => .ok (some e.location.lat, some e.location.lng)
      else .ok (none, none)
    else .ok (none, none)

/-- Embeds `get_district_from_gmaps` (towns.py 67-88).  Every exception is
caught by the bare `except Exception`, so the function always returns an
optional district name and never raises. -/
def get_district_from_gmaps (resp : GeoResponse) : Option String :=
  match resp with
  | .transportError => none
  | .http code body =>
    if code = 200 then
      if body.status = "OK" then
        match body.results with
        | [] => none
        | e :: _ =>
          match e.addressComponents.find? (fun c => "administrative_area_level_2" ∈ c.types) with
          | some c => some c.longName
          | none => none
      else none
    else none

/-! ## The sync pipeline (pb.py `main`, lines 129-199)

A `Record` models a remote `Form_Items` record whose `Form` field is a
relation list (records created by this pipeline always carry a list there;
pb.py 156-158 normalizes scalar values first, see `pbFormList`).  The row
loop becomes `runSync`, an explicit fold over the store; every HTTP request
is recorded as an `Effect`, and `requests.HTTPError` outcomes are injected
through a per-row `FailSpec`. -/

/-- A remote record as seen by the pipeline. -/
structure Record where
  rid : Nat
  itemName : String
  itemCode : String
  unit : String
  form : List String
deriving Repr, DecidableEq

/-- The record store: the list of records in creation order. -/
abbrev Store := List Record

/-- A spreadsheet cell as pandas presents it under `dtype=str`: either the
cell's string contents, or `NaN` for an empty cell.  pb.py reads the sheet
with `pd.read_excel(..., dtype=str)` and performs no `NaN` to `None`
replacement, so empty cells stay `NaN` (a float), which `is not None`. -/
inductive Cell where
  | str (s : String)
  | nan
deriving Repr, DecidableEq

/-- A source row after column resolution: the cell under each resolved
column, `none` when that column is unmapped in the sheet. -/
structure Row where
  nameCell : Option Cell
  codeCell : Option Cell
  unitCell : Option Cell
deriving Repr, DecidableEq

/-- Embeds `str(row[col]).strip() if col and row.get(col) is not None else ""`
(pb.py 134-136).  An unmapped column yields "".  An empty cell is `NaN`,
which passes the `is not None` guard, and `str(nan).strip()` is the
non-blank string "nan" - so an absent cell does not extract to a blank. -/
def cellStr (c : Option Cell) : String :=
  match c with
  | none => ""
  | some .nan => "nan"
  | some (.str s) => pyStrip s

/-- The `item_name` extracted from a row (pb.py 134). -/
def rowName (row : Row) : String := cellStr row.nameCell

/-- The `item_code` extracted from a row (pb.py 135). -/
def rowCode (row : Row) : String := cellStr row.codeCell

/-- The `unit` extracted from a row (pb.py 136). -/
def rowUnit (row : Row) : String := cellStr row.unitCell

/-- A row passes the identity check of pb.py 139 when name or code is
non-empty after stripping. -/
def rowValid (row : Row) : Bool :=
  decide (¬ (rowName row = "" ∧ rowCode row = ""))

/-- The lookup field chosen by pb.py 145-149: `Item_Code` when the code is
present, otherwise `Item_Name`. -/
def keyField (row : Row) : String :=
  if rowCode row ≠ "" then "Item_Code" else "Item_Name"

/-- The lookup value paired with `keyField`. -/
def keyValue (row : Row) : String :=
  if rowCode row ≠ "" then rowCode row else rowName row

/-- Reads a named field of a record, as the store's filter does. -/
def getField (r : Record) (f : String) : String :=
  if f = "Item_Code" then r.itemCode
  else if f = "Item_Name" then r.itemName
  else if f = "Unit" then r.unit
  else ""

/-- Embeds `find_by_field` (pb.py 64-71): an exact-equality filter on one
field, returning the first match (`perPage = 1`). -/
def findByField (store : Store) (field value : String) : Option Record :=
  (store.filter (fun r => decide (getField r field = value))).head?

/-- Applies a successful `PATCH` carrying only the `Form` field: the record
with the given id gets the new relation list, every other field and every
other record is untouched. -/
def setForm (store : Store) (rid : Nat) (newForm : List String) : Store :=
  store.map (fun r => if r.rid = rid then { r with form := newForm } else r)

/-- The record a successful create call adds (pb.py 174-182): name and code
always present, the relation list `[relId]` exactly when `relId` is truthy.
The store assigns the next fresh id. -/
def newRecord (store : Store) (name code unit relId : String) : Record :=
  { rid := store.length, itemName := name, itemCode := code, unit := unit,
    form := if relId ≠ "" then [relId] else [] }

/-- A payload field value: a string or a list of relation ids. -/
inductive FieldVal where
  | str (s : String)
  | list (l : List String)
deriving Repr, DecidableEq

/-- The create payload of pb.py 174-182: `Unit` only when non-empty, `Form`
only when the relation id is truthy. -/
def createPayload (name code unit relId : String) : List (String × FieldVal) :=
  [("Item_Name", FieldVal.str name), ("Item_Code", FieldVal.str code)]
    ++ (if unit ≠ "" then [("Unit", FieldVal.str unit)] else [])
    ++ (if relId ≠ "" then [("Form", FieldVal.list [relId])] else [])

/-- One HTTP side effect of the pipeline.  `lookupReq` is the GET issued by
`find_by_field`; `createReq`/`updateReq` are issued mutations; `dryCreate`
and `dryUpdate` are the `[DRY-RUN]` prints carrying the intended payload. -/
inductive Effect where
  | lookupReq (field value : String)
  | createReq (payload : List (String × FieldVal))
  | updateReq (rid : Nat) (payload : List (String × FieldVal))
  | dryCreate (payload : List (String × FieldVal))
  | dryUpdate (rid : Nat) (payload : List (String × FieldVal))
deriving Repr, DecidableEq

/-- Recognizes an issued mutating call (POST create or PATCH update). -/
def isMutationReq : Effect → Bool
  | .createReq _ => true
  | .updateReq _ _ => true
  | _ => false

/-- Recognizes the lookup GET. -/
def isLookupReq : Effect → Bool
  | .lookupReq _ _ => true
  | _ => false

/-- The per-row outcome taxonomy of the run. -/
inductive SyncOutcome where
  | Created
  | Updated
  | SkippedUnchanged
  | SkippedInvalid
  | Failed (reason : String)
deriving Repr, DecidableEq

/-- Which of a row's HTTP requests raise `requests.HTTPError`. -/
structure FailSpec where
  lookupFails : Bool
  mutationFails : Bool
deriving Repr, DecidableEq

/-- The failure specification of a row whose requests all succeed. -/
def noFail : FailSpec := ⟨false, false⟩

/-- The result of processing one row: its outcome, the store afterwards,
the HTTP effects in order, and the increments pb.py applies to its
`created`/`updated` counters. -/
structure RowResult where
  outcome : SyncOutcome
  store : Store
  effects : List Effect
  createdInc : Nat
  updatedInc : Nat
deriving Repr, DecidableEq

/-- Embeds one iteration of the row loop (pb.py 133-197).

A row with neither name nor code is skipped before any request.  Otherwise
a lookup is issued on the preferred identity field; an `HTTPError` there is
caught in place (pb.py 150-151), leaving `existing` empty, so the row falls
through to the create branch.  A found record goes through the relation
merge; a missing one through create.  In dry-run mode the intended payload
is printed and nothing is issued.  An `HTTPError` from create or update is
caught, leaving the store unchanged and the counters unincremented. -/
def processRow (dryRun : Bool) (relId : String) (fs : FailSpec) (store : Store)
    (row : Row) : RowResult :=
  if rowValid row then
    let f := keyField row
    let v := keyValue row
    let le := [Effect.lookupReq f v]
    match (if fs.lookupFails then none else findByField store f v) with
    | some rec =>
      match mergeRelation rec.form relId with
      | none => ⟨.SkippedUnchanged, store, le, 0, 0⟩
      | some newForm =>
        let payload := [("Form", FieldVal.list newForm)]
        if dryRun then ⟨.Updated, store, le ++ [.dryUpdate rec.rid payload], 0, 0⟩
        else if fs.mutationFails then
          ⟨.Failed "update", store, le ++ [.updateReq rec.rid payload], 0, 0⟩
        else
          ⟨.Updated, setForm store rec.rid newForm,
            le ++ [.updateReq rec.rid payload], 0, 1⟩
    | none =>
      let payload := createPayload (rowName row) (rowCode row) (rowUnit row) relId
      if dryRun then ⟨.Created, store, le ++ [.dryCreate payload], 0, 0⟩
      else if fs.mutationFails then
        ⟨.Failed "create", store, le ++ [.createReq payload], 0, 0⟩
      else
        ⟨.Created, store ++ [newRecord store (rowName row) (rowCode row) (rowUnit row) relId],
          le ++ [.createReq payload], 1, 0⟩
  else ⟨.SkippedInvalid, store, [], 0, 0⟩

/-- The accumulated result of a full pass: final store, per-row outcomes in
order, HTTP effects in order, and the final counter values. -/
structure RunResult where
  store : Store
  outcomes : List SyncOutcome
  effects : List Effect
  created : Nat
  updated : Nat
deriving Repr, DecidableEq

/-- Embeds the full row loop of pb.py `main`: rows are processed in order,
each against the store left by its predecessors. -/
def runSync (dryRun : Bool) (relId : String) :
    List (Row × FailSpec) → Store → RunResult
  | [], store => ⟨store, [], [], 0, 0⟩
  | (row, fs) :: rest, store =>
    let r := processRow dryRun relId fs store row
    let rr := runSync dryRun relId rest r.store
    ⟨rr.store, r.outcome :: rr.outcomes, r.effects ++ rr.effects,
      r.createdInc + rr.created, r.updatedInc + rr.updated⟩

/-- A non-dry pass in which every HTTP request succeeds. -/
def runSyncOk (relId : String) (rows : List Row) (store : Store) : RunResult :=
  runSync false relId (rows.map (fun r => (r, noFail))) store

/-- Every record in the store already carries the target relation id. -/
def allHaveRel (relId : String) (store : Store) : Prop :=
  ∀ r ∈ store, relId ∈ r.form

/-- Some record in the store matches the given field/value pair exactly. -/
def hasMatch (store : Store) (f v : String) : Prop :=
  ∃ r ∈ store, getField r f = v

/-! ## Sanity checks -/

example : _split_relations (some "a, b;c") = ["a", "b", "c"] := by decide
example : _split_relations (some "a,a") = ["a", "a"] := by decide
example : _split_relations (some "  ") = [] := by decide
example : _norm_col "Item Code" = "itemcode" := by decide
example : _pick_col ["Foo", "ITEM CODE"] ["Item_Code", "Code"] = some "ITEM CODE" := by decide
example : _as_list (.scalar (.str " x ")) = ["x"] := by decide
example : _as_list (.arr [.str " x ", .str " "]) = [" x "] := by decide
example : pbFormList (.scalar (.str "")) = [] := by decide
example : pbFormList (.scalar (.str "x")) = [.str "x"] := by decide
example : pbFormList (.scalar (.num 0)) = [] := by decide

example :
    (runSyncOk "R" [⟨some (.str "Widget"), some (.str "W-100"), some (.str "ea")⟩] []).outcomes
      = [SyncOutcome.Created] := by decide

example :
    (runSyncOk "R" [⟨some (.str "Widget"), some (.str "W-100"), some (.str "ea")⟩]
      (runSyncOk "R" [⟨some (.str "Widget"), some (.str "W-100"), some (.str "ea")⟩] []).store).outcomes
      = [SyncOutcome.SkippedUnchanged] := by decide

/-! ## Branch equations for `processRow` -/

theorem processRow_invalid {row : Row} (d : Bool) (relId : String) (fs : FailSpec)
    (store : Store) (hv : rowValid row = false) :
    processRow d relId fs store row = ⟨.SkippedInvalid, store, [], 0, 0⟩ := by
  simp [processRow, hv]

theorem processRow_skip {relId : String} {store : Store} {row : Row} {rec : Record}
    (d : Bool) (fs : FailSpec) (hv : rowValid row = true) (hlf : fs.lookupFails = false)
    (hfind : findByField store (keyField row) (keyValue row) = some rec)
    (hmem : relId ∈ rec.form) :
    processRow d relId fs store row
      = ⟨.SkippedUnchanged, store, [Effect.lookupReq (keyField row) (keyValue row)], 0, 0⟩ := by
  simp [processRow, hv, hlf, hfind, mergeRelation, hmem]

theorem processRow_update {relId : String} {store : Store} {row : Row} {rec : Record}
    {fs : FailSpec} (hv : rowValid row = true) (hlf : fs.lookupFails = false)
    (hmf : fs.mutationFails = false)
    (hfind : findByField store (keyField row) (keyValue row) = some rec)
    (hmem : relId ∉ rec.form) :
    processRow false relId fs store row
      = ⟨.Updated, setForm store rec.rid (rec.form ++ [relId]),
          [Effect.lookupReq (keyField row) (keyValue row),
           Effect.updateReq rec.rid [("Form", FieldVal.list (rec.form ++ [relId]))]], 0, 1⟩ := by
  simp [processRow, hv, hlf, hmf, hfind, mergeRelation, hmem]

theorem processRow_update_failed {relId : String} {store : Store} {row : Row} {rec : Record}
    {fs : FailSpec} (hv : rowValid row = true) (hlf : fs.lookupFails = false)
    (hmf : fs.mutationFails = true)
    (hfind : findByField store (keyField row) (keyValue row) = some rec)
    (hmem : relId ∉ rec.form) :
    processRow false relId fs store row
      = ⟨.Failed "update", store,
          [Effect.lookupReq (keyField row) (keyValue row),
           Effect.updateReq rec.rid [("Form", FieldVal.list (rec.form ++ [relId]))]], 0, 0⟩ := by
  simp [processRow, hv, hlf, hmf, hfind, mergeRelation, hmem]

theorem processRow_update_dry {relId : String} {store : Store} {row : Row} {rec : Record}
    (fs : FailSpec) (hv : rowValid row = true) (hlf : fs.lookupFails = false)
    (hfind : findByField store (keyField row) (keyValue row) = some rec)
    (hmem : relId ∉ rec.form) :
    processRow true relId fs store row
      = ⟨.Updated, store,
          [Effect.lookupReq (keyField row) (keyValue row),
           Effect.dryUpdate rec.rid [("Form", FieldVal.list (rec.form ++ [relId]))]], 0, 0⟩ := by
  simp [processRow, hv, hlf, hfind, mergeRelation, hmem]

theorem processRow_create {relId : String} {store : Store} {row : Row}
    {fs : FailSpec} (hv : rowValid row = true) (hmf : fs.mutationFails = false)
    (hnone : (if fs.lookupFails then none
      else findByField store (keyField row) (keyValue row)) = none) :
    processRow false relId fs store row
      = ⟨.Created, store ++ [newRecord store (rowName row) (rowCode row) (rowUnit row) relId],
          [Effect.lookupReq (keyField row) (keyValue row),
           Effect.createReq (createPayload (rowName row) (rowCode row) (rowUnit row) relId)],
          1, 0⟩ := by
  simp [processRow, hv, hmf, hnone]

theorem processRow_create_failed {relId : String} {store : Store} {row : Row}
    {fs : FailSpec} (hv : rowValid row = true) (hmf : fs.mutationFails = true)
    (hnone : (if fs.lookupFails then none
      else findByField store (keyField row) (keyValue row)) = none) :
    processRow false relId fs store row
      = ⟨.Failed "create", store,
          [Effect.lookupReq (keyField row) (keyValue row),
           Effect.createReq (createPayload (rowName row) (rowCode row) (rowUnit row) relId)],
          0, 0⟩ := by
  simp [processRow, hv, hmf, hnone]

theorem processRow_create_dry {relId : String} {store : Store} {row : Row}
    (fs : FailSpec) (hv : rowValid row = true)
    (hnone : (if fs.lookupFails then none
      else findByField store (keyField row) (keyValue row)) = none) :
    processRow true relId fs store row
      = ⟨.Created, store,
          [Effect.lookupReq (keyField row) (keyValue row),
           Effect.dryCreate (createPayload (rowName row) (rowCode row) (rowUnit row) relId)],
          0, 0⟩ := by
  simp [processRow, hv, hnone]

/-! ## Lookup characterization -/

theorem findByField_some {store : Store} {f v : String} {rec : Record}
    (h : findByField store f v = some rec) : rec ∈ store ∧ getField rec f = v := by
  unfold findByField at h
  have hmem : rec ∈ store.filter (fun r => decide (getField r f = v)) := by
    cases hl : store.filter (fun r => decide (getField r f = v)) with
    | nil => rw [hl] at h; cases h
    | cons a t =>
      rw [hl] at h
      have ha : a = rec := by simpa using h
      rw [← ha]
      exact List.mem_cons_self a t
  have hm := List.mem_filter.mp hmem
  exact ⟨hm.1, of_decide_eq_true hm.2⟩

theorem findByField_of_match {store : Store} {f v : String} {r : Record}
    (hr : r ∈ store) (hv : getField r f = v) :
    ∃ rec, findByField store f v = some rec := by
  unfold findByField
  cases hl : store.filter (fun r => decide (getField r f = v)) with
  | nil =>
    have : r ∈ store.filter (fun r => decide (getField r f = v)) :=
      List.mem_filter.mpr ⟨hr, decide_eq_true hv⟩
    rw [hl] at this
    cases this
  | cons a t => exact ⟨a, by simp⟩

theorem lookup_opt_some {fs : FailSpec} {store : Store} {f v : String} {rec : Record}
    (hopt : (if fs.lookupFails then none else findByField store f v) = some rec) :
    fs.lookupFails = false ∧ findByField store f v = some rec := by
  cases hlf : fs.lookupFails with
  | true => rw [hlf] at hopt; simp at hopt
  | false =>
    rw [hlf] at hopt
    simp at hopt
    exact ⟨rfl, hopt⟩

theorem runSync_cons (d : Bool) (relId : String) (row : Row) (fs : FailSpec)
    (rest : List (Row × FailSpec)) (store : Store) :
    runSync d relId ((row, fs) :: rest) store =
      ⟨(runSync d relId rest (processRow d relId fs store row).store).store,
       (processRow d relId fs store row).outcome
         :: (runSync d relId rest (processRow d relId fs store row).store).outcomes,
       (processRow d relId fs store row).effects
         ++ (runSync d relId rest (processRow d relId fs store row).store).effects,
       (processRow d relId fs store row).createdInc
         + (runSync d relId rest (processRow d relId fs store row).store).created,
       (processRow d relId fs store row).updatedInc
         + (runSync d relId rest (processRow d relId fs store row).store).updated⟩ := rfl

theorem runSync_append (d : Bool) (relId : String) (xs ys : List (Row × FailSpec))
    (store : Store) :
    (runSync d relId (xs ++ ys) store).store
        = (runSync d relId ys (runSync d relId xs store).store).store ∧
    (runSync d relId (xs ++ ys) store).outcomes
        = (runSync d relId xs store).outcomes
          ++ (runSync d relId ys (runSync d relId xs store).store).outcomes ∧
    (runSync d relId (xs ++ ys) store).effects
        = (runSync d relId xs store).effects
          ++ (runSync d relId ys (runSync d relId xs store).store).effects ∧
    (runSync d relId (xs ++ ys) store).created
        = (runSync d relId xs store).created
          + (runSync d relId ys (runSync d relId xs store).store).created ∧
    (runSync d relId (xs ++ ys) store).updated
        = (runSync d relId xs store).updated
          + (runSync d relId ys (runSync d relId xs store).store).updated := by
  induction xs generalizing store with
  | nil => refine ⟨rfl, rfl, rfl, ?_, ?_⟩ <;> simp [runSync]
  | cons rf rest ih =>
    obtain ⟨row, fs⟩ := rf
    obtain ⟨i1, i2, i3, i4, i5⟩ := ih (processRow d relId fs store row).store
    rw [List.cons_append, runSync_cons, runSync_cons]
    refine ⟨?_, ?_, ?_, ?_, ?_⟩
    · exact i1
    · simp only [i2, List.cons_append]
    · simp only [i3, List.append_assoc]
    · simp only [i4, Nat.add_assoc]
    · simp only [i5, Nat.add_assoc]

theorem runSync_length (d : Bool) (relId : String) (rows : List (Row × FailSpec))
    (store : Store) :
    (runSync d relId rows store).outcomes.length = rows.length := by
  induction rows generalizing store with
  | nil => rfl
  | cons rf rest ih =>
    obtain ⟨row, fs⟩ := rf
    rw [runSync_cons]
    simp only [List.length_cons]
    rw [ih]

theorem processRow_failed_frame {d : Bool} {relId : String} {fs : FailSpec}
    {store : Store} {row : Row} {reason : String}
    (h : (processRow d relId fs store row).outcome = .Failed reason) :
    (processRow d relId fs store row).store = store ∧
    (processRow d relId fs store row).createdInc = 0 ∧
    (processRow d relId fs store row).updatedInc = 0 := by
  by_cases hv : rowValid row
  case neg =>
    rw [processRow_invalid d relId fs store (by simpa using hv)]
    exact ⟨rfl, rfl, rfl⟩
  case pos =>
    cases hopt : (if fs.lookupFails then none
        else findByField store (keyField row) (keyValue row)) with
    | none =>
      cases d with
      | true =>
        rw [processRow_create_dry fs hv hopt]
        exact ⟨rfl, rfl, rfl⟩
      | false =>
        cases hmf : fs.mutationFails with
        | true =>
          rw [processRow_create_failed hv hmf hopt]
          exact ⟨rfl, rfl, rfl⟩
        | false =>
          rw [processRow_create hv hmf hopt] at h
          simp at h
    | some rec =>
      obtain ⟨hlf, hfind⟩ := lookup_opt_some hopt
      by_cases hmem : relId ∈ rec.form
      · rw [processRow_skip d fs hv hlf hfind hmem]
        exact ⟨rfl, rfl, rfl⟩
      · cases d with
        | true =>
          rw [processRow_update_dry fs hv hlf hfind hmem]
          exact ⟨rfl, rfl, rfl⟩
        | false =>
          cases hmf : fs.mutationFails with
          | true =>
            rw [processRow_update_failed hv hlf hmf hfind hmem]
            exact ⟨rfl, rfl, rfl⟩
          | false =>
            rw [processRow_update hv hlf hmf hfind hmem] at h
            simp at h

theorem processRow_dry (relId : String) (fs : FailSpec) (store : Store) (row : Row) :
    (processRow true relId fs store row).store = store ∧
    (processRow true relId fs store row).createdInc = 0 ∧
    (processRow true relId fs store row).updatedInc = 0 ∧
    ∀ e ∈ (processRow true relId fs store row).effects, isMutationReq e = false := by
  by_cases hv : rowValid row
  case neg =>
    rw [processRow_invalid true relId fs store (by simpa using hv)]
    exact ⟨rfl, rfl, rfl, by intro e he; cases he⟩
  case pos =>
    cases hopt : (if fs.lookupFails then none
        else findByField store (keyField row) (keyValue row)) with
    | none =>
      rw [processRow_create_dry fs hv hopt]
      refine ⟨rfl, rfl, rfl, ?_⟩
      intro e he
      rcases List.mem_cons.mp he with rfl | he'
      · rfl
      · rcases List.mem_cons.mp he' with rfl | he''
        · rfl
        · cases he''
    | some rec =>
      obtain ⟨hlf, hfind⟩ := lookup_opt_some hopt
      by_cases hmem : relId ∈ rec.form
      · rw [processRow_skip true fs hv hlf hfind hmem]
        refine ⟨rfl, rfl, rfl, ?_⟩
        intro e he
        rcases List.mem_cons.mp he with rfl | he'
        · rfl
        · cases he'
      · rw [processRow_update_dry fs hv hlf hfind hmem]
        refine ⟨rfl, rfl, rfl, ?_⟩
        intro e he
        rcases List.mem_cons.mp he with rfl | he'
        · rfl
        · rcases List.mem_cons.mp he' with rfl | he''
          · rfl
          · cases he''

theorem processRow_lookups {row : Row} (d : Bool) (relId : String) (fs : FailSpec)
    (store : Store) (hv : rowValid row = true) :
    (processRow d relId fs store row).effects.filter isLookupReq
      = [Effect.lookupReq (keyField row) (keyValue row)] := by
  cases hopt : (if fs.lookupFails then none
      else findByField store (keyField row) (keyValue row)) with
  | none =>
    cases d with
    | true => rw [processRow_create_dry fs hv hopt]; rfl
    | false =>
      cases hmf : fs.mutationFails with
      | true => rw [processRow_create_failed hv hmf hopt]; rfl
      | false => rw [processRow_create hv hmf hopt]; rfl
  | some rec =>
    obtain ⟨hlf, hfind⟩ := lookup_opt_some hopt
    by_cases hmem : relId ∈ rec.form
    · rw [processRow_skip d fs hv hlf hfind hmem]; rfl
    · cases d with
      | true => rw [processRow_update_dry fs hv hlf hfind hmem]; rfl
      | false =>
        cases hmf : fs.mutationFails with
        | true => rw [processRow_update_failed hv hlf hmf hfind hmem]; rfl
        | false => rw [processRow_update hv hlf hmf hfind hmem]; rfl

/-! ## Splitting and trimming lemmas -/

theorem splitParts_ne_nil (p : Char → Bool) (l : List Char) : splitParts p l ≠ [] := by
  induction l with
  | nil => simp [splitParts]
  | cons c cs ih =>
    unfold splitParts
    cases hpc : p c with
    | true => simp
    | false =>
      simp only [Bool.false_eq_true, if_false]
      cases hs : splitParts p cs with
      | nil => simp
      | cons t ts => simp

theorem splitParts_no_delim (p : Char → Bool) (l : List Char) :
    ∀ part ∈ splitParts p l, ∀ c ∈ part, p c = false := by
  induction l with
  | nil =>
    intro part hp c hc
    simp [splitParts] at hp
    subst hp
    cases hc
  | cons x xs ih =>
    intro part hp c hc
    unfold splitParts at hp
    cases hx : p x with
    | true =>
      rw [hx] at hp
      simp only [if_true] at hp
      rcases List.mem_cons.mp hp with rfl | hp'
      · cases hc
      · exact ih part hp' c hc
    | false =>
      rw [hx] at hp
      simp only [Bool.false_eq_true, if_false] at hp
      cases hs : splitParts p xs with
      | nil => exact absurd hs (splitParts_ne_nil p xs)
      | cons t ts =>
        rw [hs] at hp
        rcases List.mem_cons.mp hp with rfl | hp'
        · rcases List.mem_cons.mp hc with rfl | hc'
          · exact hx
          · exact ih t (by rw [hs]; exact List.mem_cons_self t ts) c hc'
        · exact ih part (by rw [hs]; exact List.mem_cons_of_mem t hp') c hc

theorem mem_of_mem_dropWhile {p : Char → Bool} {l : List Char} {x : Char}
    (h : x ∈ l.dropWhile p) : x ∈ l := by
  exact (List.dropWhile_sublist p).subset h

theorem mem_trimChars {l : List Char} {x : Char} (h : x ∈ trimChars l) : x ∈ l := by
  unfold trimChars at h
  rw [List.mem_reverse] at h
  have h1 := mem_of_mem_dropWhile h
  rw [List.mem_reverse] at h1
  exact mem_of_mem_dropWhile h1

theorem dropWhile_self (p : Char → Bool) (l : List Char) :
    (l.dropWhile p).dropWhile p = l.dropWhile p := by
  induction l with
  | nil => rfl
  | cons c cs ih =>
    rw [List.dropWhile_cons]
    cases h : p c with
    | true => simpa using ih
    | false => simp [List.dropWhile_cons, h]

theorem exists_append_dropWhile (p : Char → Bool) (l : List Char) :
    ∃ u, u ++ l.dropWhile p = l := by
  induction l with
  | nil => exact ⟨[], rfl⟩
  | cons c cs ih =>
    cases h : p c with
    | true =>
      obtain ⟨u, hu⟩ := ih
      exact ⟨c :: u, by rw [List.dropWhile_cons]; simp [h, hu]⟩
    | false => exact ⟨[], by rw [List.dropWhile_cons]; simp [h]⟩

theorem dropWhile_eq_self_of_append {p : Char → Bool} {t s a : List Char}
    (ha : a = t ++ s) (hself : a.dropWhile p = a) : t.dropWhile p = t := by
  cases t with
  | nil => rfl
  | cons x t' =>
    rw [ha, List.cons_append, List.dropWhile_cons] at hself
    cases hx : p x with
    | true =>
      exfalso
      rw [hx] at hself
      simp only [if_true] at hself
      have h1 : ((t' ++ s).dropWhile p).length ≤ (t' ++ s).length :=
        (List.dropWhile_sublist p).length_le
      rw [hself] at h1
      simp [List.length_append] at h1
    | false =>
      rw [List.dropWhile_cons, hx]
      simp

theorem trim_fix_of_trim (l : List Char) : trimChars (trimChars l) = trimChars l := by
  have haself := dropWhile_self Char.isWhitespace l
  obtain ⟨u, hu⟩ :=
    exists_append_dropWhile Char.isWhitespace (l.dropWhile Char.isWhitespace).reverse
  have hta : l.dropWhile Char.isWhitespace
      = ((l.dropWhile Char.isWhitespace).reverse.dropWhile Char.isWhitespace).reverse
        ++ u.reverse := by
    have h2 := congrArg List.reverse hu
    rw [List.reverse_append, List.reverse_reverse] at h2
    exact h2.symm
  have ht := dropWhile_eq_self_of_append hta haself
  unfold trimChars
  rw [ht, List.reverse_reverse,
    dropWhile_self Char.isWhitespace (l.dropWhile Char.isWhitespace).reverse]

/-! ## Column-resolution lemmas -/

theorem dictFind_mem {cols : List String} {k c : String}
    (h : dictFind (normIndex cols) k = some c) : c ∈ cols ∧ _norm_col c = k := by
  unfold dictFind at h
  cases hf : (normIndex cols).reverse.find? (fun p => p.1 == k) with
  | none => rw [hf] at h; cases h
  | some p =>
    rw [hf] at h
    have hc : p.2 = c := by simpa using h
    have hpred : p.1 = k := by simpa using List.find?_some hf
    have hmem : p ∈ (normIndex cols).reverse := List.mem_of_find?_eq_some hf
    rw [List.mem_reverse] at hmem
    obtain ⟨a, ha, hpa⟩ := List.mem_map.mp hmem
    have h1 : p.1 = _norm_col a := by rw [← hpa]
    have h2 : p.2 = a := by rw [← hpa]
    constructor
    · rw [← hc, h2]; exact ha
    · rw [← hc, h2, ← h1, hpred]

theorem dictFind_eq_none_of {cols : List String} {k : String}
    (hall : ∀ c ∈ cols, _norm_col c ≠ k) : dictFind (normIndex cols) k = none := by
  unfold dictFind
  have hf : (normIndex cols).reverse.find? (fun p => p.1 == k) = none := by
    rw [List.find?_eq_none]
    intro p hp
    rw [List.mem_reverse] at hp
    obtain ⟨a, ha, hpa⟩ := List.mem_map.mp hp
    rw [← hpa]
    simpa using hall a ha
  rw [hf]

theorem dictFind_some_of {cols : List String} {k c : String}
    (hc : c ∈ cols) (hk : _norm_col c = k) :
    ∃ d, dictFind (normIndex cols) k = some d := by
  cases hd : dictFind (normIndex cols) k with
  | some d => exact ⟨d, rfl⟩
  | none =>
    unfold dictFind at hd
    cases hf : (normIndex cols).reverse.find? (fun p => p.1 == k) with
    | some p => rw [hf] at hd; cases hd
    | none =>
      have hmem : (⟨_norm_col c, c⟩ : String × String) ∈ (normIndex cols).reverse := by
        rw [List.mem_reverse]
        exact List.mem_map.mpr ⟨c, hc, rfl⟩
      have hcon := List.find?_eq_none.mp hf _ hmem
      simp [hk] at hcon

theorem dictFind_none_mem {cols : List String} {k : String}
    (h : dictFind (normIndex cols) k = none) : ∀ c ∈ cols, _norm_col c ≠ k := by
  intro c hc hk
  obtain ⟨d, hd⟩ := dictFind_some_of hc hk
  rw [h] at hd
  cases hd

theorem pick_col_none_iff (cols : List String) (cands : List String) :
    _pick_col cols cands = none ↔
      ∀ cand ∈ cands, ∀ c ∈ cols, _norm_col cand ≠ _norm_col c := by
  induction cands with
  | nil => simp [_pick_col]
  | cons cand rest ih =>
    unfold _pick_col
    cases hd : dictFind (normIndex cols) (_norm_col cand) with
    | some c =>
      constructor
      · intro h; cases h
      · intro hall
        obtain ⟨hc, hnc⟩ := dictFind_mem hd
        exact absurd hnc.symm (hall cand (List.mem_cons_self _ _) c hc)
    | none =>
      rw [ih]
      constructor
      · intro h cand' hcand' c hc
        rcases List.mem_cons.mp hcand' with he | ht
        · subst he
          intro hne
          exact dictFind_none_mem hd c hc hne.symm
        · exact h cand' ht c hc
      · intro h cand' ht c hc
        exact h cand' (List.mem_cons_of_mem _ ht) c hc

theorem pick_col_mem {cols cands : List String} {c : String}
    (h : _pick_col cols cands = some c) :
    c ∈ cols ∧ ∃ cand ∈ cands, _norm_col c = _norm_col cand := by
  induction cands with
  | nil => cases h
  | cons cand rest ih =>
    unfold _pick_col at h
    cases hd : dictFind (normIndex cols) (_norm_col cand) with
    | some d =>
      rw [hd] at h
      have hcd : d = c := by simpa using h
      obtain ⟨hdc, hnd⟩ := dictFind_mem hd
      subst hcd
      exact ⟨hdc, cand, List.mem_cons_self _ _, hnd⟩
    | none =>
      rw [hd] at h
      obtain ⟨h1, cand', hc', h2⟩ := ih h
      exact ⟨h1, cand', List.mem_cons_of_mem _ hc', h2⟩

theorem pick_col_first {cols : List String} (pre : List String) (cand : String)
    (post : List String)
    (hpre : ∀ c' ∈ pre, ∀ col ∈ cols, _norm_col c' ≠ _norm_col col)
    (hmatch : ∃ col ∈ cols, _norm_col col = _norm_col cand) :
    ∃ col, _pick_col cols (pre ++ cand :: post) = some col ∧ col ∈ cols ∧
      _norm_col col = _norm_col cand := by
  induction pre with
  | nil =>
    obtain ⟨col, hcol, hn⟩ := hmatch
    obtain ⟨d, hd⟩ := dictFind_some_of hcol hn
    obtain ⟨hdc, hnd⟩ := dictFind_mem hd
    refine ⟨d, ?_, hdc, hnd⟩
    rw [List.nil_append]
    unfold _pick_col
    rw [hd]
  | cons p pre' ih =>
    have hdp : dictFind (normIndex cols) (_norm_col p) = none := by
      apply dictFind_eq_none_of
      intro c hc he
      exact hpre p (List.mem_cons_self _ _) c hc he.symm
    obtain ⟨col, hp, h1, h2⟩ := ih (fun c' hc' => hpre c' (List.mem_cons_of_mem _ hc'))
    refine ⟨col, ?_, h1, h2⟩
    rw [List.cons_append]
    unfold _pick_col
    rw [hdp]
    exact hp

/-! ## Invariants for the idempotence argument -/

theorem getField_update (r : Record) (rid : Nat) (nf : List String) (f : String) :
    getField (if r.rid = rid then { r with form := nf } else r) f = getField r f := by
  by_cases h : r.rid = rid <;> simp [h, getField]

theorem hasMatch_setForm {store : Store} {f v : String} (rid : Nat) (nf : List String)
    (h : hasMatch store f v) : hasMatch (setForm store rid nf) f v := by
  obtain ⟨r, hr, hgf⟩ := h
  refine ⟨(if r.rid = rid then { r with form := nf } else r), ?_, ?_⟩
  · exact List.mem_map.mpr ⟨r, hr, rfl⟩
  · rw [getField_update]
    exact hgf

theorem processRow_store_shape (d : Bool) (relId : String) (fs : FailSpec)
    (store : Store) (row : Row) :
    (processRow d relId fs store row).store = store ∨
    (∃ rid nf, relId ∈ nf ∧ (processRow d relId fs store row).store = setForm store rid nf) ∨
    (processRow d relId fs store row).store
      = store ++ [newRecord store (rowName row) (rowCode row) (rowUnit row) relId] := by
  by_cases hv : rowValid row
  case neg =>
    left
    rw [processRow_invalid d relId fs store (by simpa using hv)]
  case pos =>
    cases hopt : (if fs.lookupFails then none
        else findByField store (keyField row) (keyValue row)) with
    | none =>
      cases d with
      | true =>
        left
        rw [processRow_create_dry fs hv hopt]
      | false =>
        by_cases hmf : fs.mutationFails
        · left
          rw [processRow_create_failed hv (by simpa using hmf) hopt]
        · right; right
          rw [processRow_create hv (by simpa using hmf) hopt]
    | some rec =>
      have hlf : fs.lookupFails = false := by
        by_contra hc
        have : fs.lookupFails = true := by simpa using hc
        rw [this] at hopt
        simp at hopt
      have hfind : findByField store (keyField row) (keyValue row) = some rec := by
        rw [hlf] at hopt
        simpa using hopt
      by_cases hmem : relId ∈ rec.form
      · left
        rw [processRow_skip d fs hv hlf hfind hmem]
      · cases d with
        | true =>
          left
          rw [processRow_update_dry fs hv hlf hfind hmem]
        | false =>
          by_cases hmf : fs.mutationFails
          · left
            rw [processRow_update_failed hv hlf (by simpa using hmf) hfind hmem]
          · right; left
            refine ⟨rec.rid, rec.form ++ [relId], List.mem_append_right _ (by simp), ?_⟩
            rw [processRow_update hv hlf (by simpa using hmf) hfind hmem]

theorem allHaveRel_processRow {relId : String} {store : Store} {row : Row}
    (d : Bool) (fs : FailSpec) (hrel : relId ≠ "") (h : allHaveRel relId store) :
    allHaveRel relId (processRow d relId fs store row).store := by
  rcases processRow_store_shape d relId fs store row with hs | ⟨rid, nf, hnf, hs⟩ | hs
  · rw [hs]; exact h
  · rw [hs]
    intro r hr
    obtain ⟨r0, hr0, him⟩ := List.mem_map.mp hr
    by_cases hrid : r0.rid = rid
    · rw [← him]
      simpa [hrid] using hnf
    · rw [← him]
      simpa [hrid] using h r0 hr0
  · rw [hs]
    intro r hr
    rcases List.mem_append.mp hr with h1 | h2
    · exact h r h1
    · have hr2 : r = newRecord store (rowName row) (rowCode row) (rowUnit row) relId := by
        simpa using h2
      rw [hr2]
      simp [newRecord, hrel]

theorem hasMatch_processRow {store : Store} {f v : String}
    (d : Bool) (relId : String) (fs : FailSpec) (row : Row)
    (h : hasMatch store f v) : hasMatch (processRow d relId fs store row).store f v := by
  rcases processRow_store_shape d relId fs store row with hs | ⟨rid, nf, _, hs⟩ | hs
  · rw [hs]; exact h
  · rw [hs]; exact hasMatch_setForm rid nf h
  · rw [hs]
    obtain ⟨r, hr, hg⟩ := h
    exact ⟨r, List.mem_append_left _ hr, hg⟩

theorem getField_newRecord_key (store : Store) (row : Row) (relId : String) :
    getField (newRecord store (rowName row) (rowCode row) (rowUnit row) relId)
      (keyField row) = keyValue row := by
  unfold keyField keyValue newRecord getField
  by_cases hc : rowCode row ≠ "" <;> simp [hc]

theorem processRow_establishes_key {relId : String} {store : Store} {row : Row}
    (hv : rowValid row = true) :
    hasMatch (processRow false relId noFail store row).store (keyField row) (keyValue row) := by
  cases hopt : findByField store (keyField row) (keyValue row) with
  | some rec =>
    have hf := findByField_some hopt
    by_cases hmem : relId ∈ rec.form
    · rw [processRow_skip false noFail hv rfl hopt hmem]
      exact ⟨rec, hf.1, hf.2⟩
    · rw [processRow_update hv rfl rfl hopt hmem]
      exact hasMatch_setForm _ _ ⟨rec, hf.1, hf.2⟩
  | none =>
    have hnone : (if noFail.lookupFails then none
        else findByField store (keyField row) (keyValue row)) = none := hopt
    rw [processRow_create hv rfl hnone]
    exact ⟨newRecord store (rowName row) (rowCode row) (rowUnit row) relId,
      List.mem_append_right _ (by simp), getField_newRecord_key store row relId⟩

/-! ## Run-level lemmas -/

theorem runSyncOk_cons (relId : String) (row : Row) (rows : List Row) (store : Store) :
    runSyncOk relId (row :: rows) store =
      ⟨(runSyncOk relId rows (processRow false relId noFail store row).store).store,
       (processRow false relId noFail store row).outcome
         :: (runSyncOk relId rows (processRow false relId noFail store row).store).outcomes,
       (processRow false relId noFail store row).effects
         ++ (runSyncOk relId rows (processRow false relId noFail store row).store).effects,
       (processRow false relId noFail store row).createdInc
         + (runSyncOk relId rows (processRow false relId noFail store row).store).created,
       (processRow false relId noFail store row).updatedInc
         + (runSyncOk relId rows (processRow false relId noFail store row).store).updated⟩ := rfl

theorem runSyncOk_allHaveRel {relId : String} (hrel : relId ≠ "") (rows : List Row)
    (store : Store) (h : allHaveRel relId store) :
    allHaveRel relId (runSyncOk relId rows store).store := by
  induction rows generalizing store with
  | nil => exact h
  | cons row rows ih =>
    rw [runSyncOk_cons]
    exact ih _ (allHaveRel_processRow false noFail hrel h)

theorem runSyncOk_hasMatch {f v : String} (relId : String) (rows : List Row)
    (store : Store) (h : hasMatch store f v) :
    hasMatch (runSyncOk relId rows store).store f v := by
  induction rows generalizing store with
  | nil => exact h
  | cons row rows ih =>
    rw [runSyncOk_cons]
    exact ih _ (hasMatch_processRow false relId noFail row h)

theorem runSyncOk_keys (relId : String) (rows : List Row) (store : Store) :
    ∀ row ∈ rows, rowValid row = true →
      hasMatch (runSyncOk relId rows store).store (keyField row) (keyValue row) := by
  induction rows generalizing store with
  | nil => intro row hr; cases hr
  | cons r0 rows ih =>
    intro row hr hv
    rcases List.mem_cons.mp hr with he | ht
    · subst he
      rw [runSyncOk_cons]
      exact runSyncOk_hasMatch relId rows _ (processRow_establishes_key hv)
    · rw [runSyncOk_cons]
      exact ih _ row ht hv

theorem runSyncOk_skip {relId : String} (rows : List Row) (store : Store)
    (hall : allHaveRel relId store)
    (hkeys : ∀ row ∈ rows, rowValid row = true →
      hasMatch store (keyField row) (keyValue row)) :
    (runSyncOk relId rows store).store = store ∧
    (runSyncOk relId rows store).created = 0 ∧
    (runSyncOk relId rows store).updated = 0 ∧
    (runSyncOk relId rows store).outcomes
      = rows.map (fun row => if rowValid row then SyncOutcome.SkippedUnchanged
          else SyncOutcome.SkippedInvalid) ∧
    ∀ e ∈ (runSyncOk relId rows store).effects, isMutationReq e = false := by
  induction rows with
  | nil => simp [runSyncOk, runSync]
  | cons row rows ih =>
    have hrest := ih (fun r hr hv => hkeys r (List.mem_cons_of_mem _ hr) hv)
    by_cases hv : rowValid row
    case pos =>
      obtain ⟨r, hr, hg⟩ := hkeys row (List.mem_cons_self _ _) hv
      obtain ⟨rec, hfind⟩ := findByField_of_match hr hg
      have hfs := findByField_some hfind
      have hmem : relId ∈ rec.form := hall rec hfs.1
      have heq : processRow false relId noFail store row
          = ⟨.SkippedUnchanged, store, [Effect.lookupReq (keyField row) (keyValue row)], 0, 0⟩ :=
        processRow_skip false noFail hv rfl hfind hmem
      rw [runSyncOk_cons, heq]
      refine ⟨hrest.1, by simpa using hrest.2.1, by simpa using hrest.2.2.1, ?_, ?_⟩
      · simp [hv, hrest.2.2.2.1]
      · intro e he
        simp only [List.cons_append, List.nil_append, List.mem_cons] at he
        rcases he with rfl | he
        · rfl
        · exact hrest.2.2.2.2 e he
    case neg =>
      have hv' : rowValid row = false := by simpa using hv
      have heq := processRow_invalid false relId noFail store hv'
      rw [runSyncOk_cons, heq]
      refine ⟨hrest.1, by simpa using hrest.2.1, by simpa using hrest.2.2.1, ?_, ?_⟩
      · simp [hv', hrest.2.2.2.1]
      · intro e he
        simp only [List.nil_append] at he
        exact hrest.2.2.2.2 e he

/-! ## Claims -/

/-- C1: Running the full sync pass twice against the same source rows and an
initially empty record store yields, on the second run, zero Created and
zero Updated outcomes: every row with identity data is SkippedUnchanged
(its lookup by identity field finds the record created or updated by the
first run, whose Form list already contains the target relation id), the
store is left unchanged, and no mutating call is issued.  The hypothesis
states that the configured relation id is truthy, matching the driver's
`if relation_id:` guard and its non-empty default. -/
theorem sync_idempotent (relId : String) (rows : List Row) (hrel : relId ≠ "") :
    (runSyncOk relId rows (runSyncOk relId rows []).store).created = 0 ∧
    (runSyncOk relId rows (runSyncOk relId rows []).store).updated = 0 ∧
    (runSyncOk relId rows (runSyncOk relId rows []).store).store
      = (runSyncOk relId rows []).store ∧
    (runSyncOk relId rows (runSyncOk relId rows []).store).outcomes
      = rows.map (fun row => if rowValid row then SyncOutcome.SkippedUnchanged
          else SyncOutcome.SkippedInvalid) ∧
    ∀ e ∈ (runSyncOk relId rows (runSyncOk relId rows []).store).effects,
      isMutationReq e = false := by
  have hall : allHaveRel relId (runSyncOk relId rows []).store :=
    runSyncOk_allHaveRel hrel rows [] (by intro r hr; cases hr)
  have hkeys := runSyncOk_keys relId rows []
  obtain ⟨h1, h2, h3, h4, h5⟩ :=
    runSyncOk_skip rows (runSyncOk relId rows []).store hall hkeys
  exact ⟨h2, h3, h1, h4, h5⟩

/-- Witness for C1: a two-row source, one row keyed by code and one by name. -/
theorem sync_idempotent_witness :
    ("tv03ya5d5h53iq3" : String) ≠ "" ∧
    ((runSyncOk "tv03ya5d5h53iq3"
        [⟨some (.str "Widget"), some (.str "W-100"), some (.str "ea")⟩, ⟨some (.str "Gadget"), none, none⟩]
        (runSyncOk "tv03ya5d5h53iq3"
          [⟨some (.str "Widget"), some (.str "W-100"), some (.str "ea")⟩, ⟨some (.str "Gadget"), none, none⟩]
          []).store).created = 0 ∧
      (runSyncOk "tv03ya5d5h53iq3"
        [⟨some (.str "Widget"), some (.str "W-100"), some (.str "ea")⟩, ⟨some (.str "Gadget"), none, none⟩]
        (runSyncOk "tv03ya5d5h53iq3"
          [⟨some (.str "Widget"), some (.str "W-100"), some (.str "ea")⟩, ⟨some (.str "Gadget"), none, none⟩]
          []).store).updated = 0 ∧
      (runSyncOk "tv03ya5d5h53iq3"
        [⟨some (.str "Widget"), some (.str "W-100"), some (.str "ea")⟩, ⟨some (.str "Gadget"), none, none⟩]
        (runSyncOk "tv03ya5d5h53iq3"
          [⟨some (.str "Widget"), some (.str "W-100"), some (.str "ea")⟩, ⟨some (.str "Gadget"), none, none⟩]
          []).store).store
        = (runSyncOk "tv03ya5d5h53iq3"
            [⟨some (.str "Widget"), some (.str "W-100"), some (.str "ea")⟩, ⟨some (.str "Gadget"), none, none⟩]
            []).store ∧
      (runSyncOk "tv03ya5d5h53iq3"
        [⟨some (.str "Widget"), some (.str "W-100"), some (.str "ea")⟩, ⟨some (.str "Gadget"), none, none⟩]
        (runSyncOk "tv03ya5d5h53iq3"
          [⟨some (.str "Widget"), some (.str "W-100"), some (.str "ea")⟩, ⟨some (.str "Gadget"), none, none⟩]
          []).store).outcomes
        = [⟨some (.str "Widget"), some (.str "W-100"), some (.str "ea")⟩, (⟨some (.str "Gadget"), none, none⟩ : Row)].map
            (fun row => if rowValid row then SyncOutcome.SkippedUnchanged
              else SyncOutcome.SkippedInvalid) ∧
      ∀ e ∈ (runSyncOk "tv03ya5d5h53iq3"
          [⟨some (.str "Widget"), some (.str "W-100"), some (.str "ea")⟩, ⟨some (.str "Gadget"), none, none⟩]
          (runSyncOk "tv03ya5d5h53iq3"
            [⟨some (.str "Widget"), some (.str "W-100"), some (.str "ea")⟩, ⟨some (.str "Gadget"), none, none⟩]
            []).store).effects,
        isMutationReq e = false) :=
  ⟨by decide, sync_idempotent "tv03ya5d5h53iq3"
    [⟨some (.str "Widget"), some (.str "W-100"), some (.str "ea")⟩, ⟨some (.str "Gadget"), none, none⟩] (by decide)⟩

/-- C2: For an existing record whose relation list is L and target id X: if
X ∈ L the outcome is SkippedUnchanged with no update call issued; otherwise
exactly one update call is issued, its payload carries only the Form field
with value L ++ [X], and no other record field appears in the payload.
Merging X into [A, B] yields [A, B, X]; [A, X, B] is left unchanged. -/
theorem relation_merge_spec :
    (∀ l x, x ∈ l → mergeRelation l x = none) ∧
    (∀ l x, x ∉ l → mergeRelation l x = some (l ++ [x])) ∧
    (∀ relId store row rec, rowValid row = true →
      findByField store (keyField row) (keyValue row) = some rec →
      relId ∈ rec.form →
      processRow false relId noFail store row
        = ⟨.SkippedUnchanged, store,
            [Effect.lookupReq (keyField row) (keyValue row)], 0, 0⟩) ∧
    (∀ relId store row rec, rowValid row = true →
      findByField store (keyField row) (keyValue row) = some rec →
      relId ∉ rec.form →
      processRow false relId noFail store row
        = ⟨.Updated, setForm store rec.rid (rec.form ++ [relId]),
            [Effect.lookupReq (keyField row) (keyValue row),
             Effect.updateReq rec.rid [("Form", FieldVal.list (rec.form ++ [relId]))]],
            0, 1⟩) ∧
    mergeRelation ["A", "B"] "X" = some ["A", "B", "X"] ∧
    mergeRelation ["A", "X", "B"] "X" = none := by
  refine ⟨?_, ?_, ?_, ?_, by decide, by decide⟩
  · intro l x hx
    simp [mergeRelation, hx]
  · intro l x hx
    simp [mergeRelation, hx]
  · intro relId store row rec hv hfind hmem
    exact processRow_skip false noFail hv rfl hfind hmem
  · intro relId store row rec hv hfind hmem
    exact processRow_update hv rfl rfl hfind hmem

/-- Witness for C2: the update branch at a concrete one-record store. -/
theorem relation_merge_spec_witness :
    rowValid ⟨some (.str "Widget"), some (.str "W-100"), none⟩ = true ∧
    findByField [⟨0, "Widget", "W-100", "ea", ["A"]⟩]
        (keyField ⟨some (.str "Widget"), some (.str "W-100"), none⟩)
        (keyValue ⟨some (.str "Widget"), some (.str "W-100"), none⟩)
      = some ⟨0, "Widget", "W-100", "ea", ["A"]⟩ ∧
    ("X" : String) ∉ (["A"] : List String) ∧
    processRow false "X" noFail [⟨0, "Widget", "W-100", "ea", ["A"]⟩]
        ⟨some (.str "Widget"), some (.str "W-100"), none⟩
      = ⟨.Updated, setForm [⟨0, "Widget", "W-100", "ea", ["A"]⟩] 0 (["A"] ++ ["X"]),
          [Effect.lookupReq (keyField ⟨some (.str "Widget"), some (.str "W-100"), none⟩)
             (keyValue ⟨some (.str "Widget"), some (.str "W-100"), none⟩),
           Effect.updateReq 0 [("Form", FieldVal.list (["A"] ++ ["X"]))]], 0, 1⟩ :=
  ⟨by decide, by decide, by decide,
    relation_merge_spec.2.2.2.1 "X" [⟨0, "Widget", "W-100", "ea", ["A"]⟩]
      ⟨some (.str "Widget"), some (.str "W-100"), none⟩ ⟨0, "Widget", "W-100", "ea", ["A"]⟩
      (by decide) (by decide) (by decide)⟩

/-- C3: Column resolution compares labels after stripping non-alphanumeric
characters and lower-casing, so "Item Code", "item_code" and "ITEMCODE"
share the normal form "itemcode"; `_pick_col` returns `none` exactly when no
candidate's normal form matches any column's; a returned column is a real
source column; and the first candidate (in preference order) with a match
determines the normal form of the returned column.  The function is a pure
Lean function, hence deterministic and side-effect-free. -/
theorem column_resolution_correct :
    (_norm_col "Item Code" = "itemcode" ∧ _norm_col "item_code" = "itemcode" ∧
      _norm_col "ITEMCODE" = "itemcode") ∧
    (∀ cols cands, _pick_col cols cands = none ↔
      ∀ cand ∈ cands, ∀ c ∈ cols, _norm_col cand ≠ _norm_col c) ∧
    (∀ cols cands c, _pick_col cols cands = some c →
      c ∈ cols ∧ ∃ cand ∈ cands, _norm_col c = _norm_col cand) ∧
    (∀ cols pre cand post,
      (∀ c' ∈ pre, ∀ col ∈ cols, _norm_col c' ≠ _norm_col col) →
      (∃ col ∈ cols, _norm_col col = _norm_col cand) →
      ∃ col, _pick_col cols (pre ++ cand :: post) = some col ∧ col ∈ cols ∧
        _norm_col col = _norm_col cand) :=
  ⟨⟨by decide, by decide, by decide⟩,
    fun cols cands => pick_col_none_iff cols cands,
    fun _ _ _ h => pick_col_mem h,
    fun _ pre cand post h1 h2 => pick_col_first pre cand post h1 h2⟩

/-- Witness for C3: the first matching candidate wins on a concrete schema. -/
theorem column_resolution_correct_witness :
    (∃ col, _pick_col ["Foo", "Item Code"] (["Nope"] ++ "ITEM_CODE" :: []) = some col ∧
      col ∈ ["Foo", "Item Code"] ∧ _norm_col col = _norm_col "ITEM_CODE") :=
  column_resolution_correct.2.2.2 ["Foo", "Item Code"] ["Nope"] "ITEM_CODE" []
    (by decide) ⟨"Item Code", by decide, by decide⟩

/-- C4 counterexample: `_split_relations` performs no deduplication, so the
input "a,a" yields the list ["a", "a"], which contains two equal elements,
contradicting the claim that exact duplicates are removed. -/
theorem split_relations_dup_counterexample :
    _split_relations (some "a,a") = ["a", "a"] ∧
    ¬ (_split_relations (some "a,a")).Nodup :=
  ⟨by decide, by decide⟩

/-- C4 amended: parsing splits on comma, semicolon, newline or tab, trims
each part and drops empty parts, preserving input order; every returned
part is non-empty, trimmed, and free of delimiter characters, but exact
duplicates are kept, so the returned list may contain equal elements. -/
theorem split_relations_parts :
    (∀ val, ∀ p ∈ _split_relations val,
      p ≠ "" ∧ trimChars p.data = p.data ∧ ∀ c ∈ p.data, isRelDelim c = false) ∧
    _split_relations (some " a ;\tb, ,a ") = ["a", "b", "a"] ∧
    _split_relations none = [] := by
  refine ⟨?_, by decide, rfl⟩
  intro val p hp
  cases val with
  | none => cases hp
  | some v =>
    have hp' : p ∈ (if trimChars v.data = [] then ([] : List String)
        else (((splitParts isRelDelim (trimChars v.data)).map trimChars).filter
          (fun q => q ≠ [])).map String.mk) := hp
    by_cases hs : trimChars v.data = []
    · rw [if_pos hs] at hp'
      cases hp'
    · rw [if_neg hs] at hp'
      obtain ⟨m, hm, hmk⟩ := List.mem_map.mp hp'
      have hmf := List.mem_filter.mp hm
      obtain ⟨m0, hm0, hm0t⟩ := List.mem_map.mp hmf.1
      have hdata : p.data = m := by rw [← hmk]
      refine ⟨?_, ?_, ?_⟩
      · intro hemp
        have hm_nil : m = [] := by
          rw [← hdata, hemp]
        have := hmf.2
        rw [hm_nil] at this
        simp at this
      · rw [hdata, ← hm0t, trim_fix_of_trim]
      · intro c hc
        rw [hdata, ← hm0t] at hc
        exact splitParts_no_delim isRelDelim (trimChars v.data) m0 hm0 c (mem_trimChars hc)

/-- Witness for C4 amended: the part "ab" of a concrete input. -/
theorem split_relations_parts_witness :
    ("ab" : String) ≠ "" ∧ trimChars ("ab" : String).data = ("ab" : String).data ∧
    ∀ c ∈ ("ab" : String).data, isRelDelim c = false :=
  split_relations_parts.1 (some " ab, ") "ab" (by decide)

/-- C5: A row carrying a non-empty code issues its lookup on the Item_Code
field and never on Item_Name; a row with empty code and non-empty name
issues it on Item_Name; and `find_by_field` is an exact-equality filter:
any record it returns is in the store and matches the field value exactly. -/
theorem lookup_prefers_code :
    (∀ d relId fs store row, rowCode row ≠ "" →
      (processRow d relId fs store row).effects.filter isLookupReq
        = [Effect.lookupReq "Item_Code" (rowCode row)]) ∧
    (∀ d relId fs store row, rowCode row = "" → rowName row ≠ "" →
      (processRow d relId fs store row).effects.filter isLookupReq
        = [Effect.lookupReq "Item_Name" (rowName row)]) ∧
    (∀ store f v rec, findByField store f v = some rec →
      rec ∈ store ∧ getField rec f = v) := by
  refine ⟨?_, ?_, fun _ _ _ _ h => findByField_some h⟩
  · intro d relId fs store row hc
    have hv : rowValid row = true := by
      simp only [rowValid, decide_eq_true_eq]
      intro hcontra
      exact hc hcontra.2
    have hk : keyField row = "Item_Code" := by simp [keyField, hc]
    have hkv : keyValue row = rowCode row := by simp [keyValue, hc]
    rw [processRow_lookups d relId fs store hv, hk, hkv]
  · intro d relId fs store row hc hn
    have hv : rowValid row = true := by
      simp only [rowValid, decide_eq_true_eq]
      intro hcontra
      exact hn hcontra.1
    have hk : keyField row = "Item_Name" := by simp [keyField, hc]
    have hkv : keyValue row = rowName row := by simp [keyValue, hc]
    rw [processRow_lookups d relId fs store hv, hk, hkv]

/-- Witness for C5: a row with both code and name looks up by code only. -/
theorem lookup_prefers_code_witness :
    rowCode (⟨some (.str "Widget"), some (.str " W-100 "), none⟩ : Row) ≠ "" ∧
    (processRow false "R" noFail [] ⟨some (.str "Widget"), some (.str " W-100 "), none⟩).effects.filter
        isLookupReq
      = [Effect.lookupReq "Item_Code" (rowCode (⟨some (.str "Widget"), some (.str " W-100 "), none⟩ : Row))] :=
  ⟨by decide, lookup_prefers_code.1 false "R" noFail [] ⟨some (.str "Widget"), some (.str " W-100 "), none⟩
    (by decide)⟩

/-- C6: The geocode lookup never returns a partial coordinate pair: whenever
it returns, both coordinates are present or both absent; and on transport
failure, a non-200 status, or a provider status other than OK it returns
the unresolved marker without raising, for both the coordinate lookup and
the district lookup. -/
theorem geocode_failure_unresolved :
    (∀ resp p, get_coordinates resp = Except.ok p → (p.1.isSome ↔ p.2.isSome)) ∧
    (get_coordinates GeoResponse.transportError = Except.ok (none, none) ∧
      get_district_from_gmaps GeoResponse.transportError = none) ∧
    (∀ code body, code ≠ 200 →
      get_coordinates (GeoResponse.http code body) = Except.ok (none, none) ∧
      get_district_from_gmaps (GeoResponse.http code body) = none) ∧
    (∀ code body, body.status ≠ "OK" →
      get_coordinates (GeoResponse.http code body) = Except.ok (none, none) ∧
      get_district_from_gmaps (GeoResponse.http code body) = none) := by
  refine ⟨?_, ⟨rfl, rfl⟩, ?_, ?_⟩
  · intro resp p h
    cases resp with
    | transportError =>
      have hp : p = (none, none) := by simpa [get_coordinates] using h.symm
      subst hp
      simp
    | http code body =>
      by_cases hc : code = 200
      · by_cases hst : body.status = "OK"
        · cases hr : body.results with
          | nil => simp [get_coordinates, hc, hst, hr] at h
          | cons e rest =>
            have hp : p = (some e.location.lat, some e.location.lng) := by
              simpa [get_coordinates, hc, hst, hr] using h.symm
            subst hp
            simp
        · have hp : p = (none, none) := by
            simpa [get_coordinates, hc, hst] using h.symm
          subst hp
          simp
      · have hp : p = (none, none) := by
          simpa [get_coordinates, hc] using h.symm
        subst hp
        simp
  · intro code body hc
    constructor <;> simp [get_coordinates, get_district_from_gmaps, hc]
  · intro code body hst
    by_cases hc : code = 200
    · constructor <;> simp [get_coordinates, get_district_from_gmaps, hc, hst]
    · constructor <;> simp [get_coordinates, get_district_from_gmaps, hc]

/-- Witness for C6: a 500 response resolves to the unresolved marker. -/
theorem geocode_failure_unresolved_witness :
    (500 : Nat) ≠ 200 ∧
    get_coordinates (GeoResponse.http 500 ⟨"OK", []⟩) = Except.ok (none, none) ∧
    get_district_from_gmaps (GeoResponse.http 500 ⟨"OK", []⟩) = none :=
  ⟨by decide, (geocode_failure_unresolved.2.2.1 500 ⟨"OK", []⟩ (by decide)).1,
    (geocode_failure_unresolved.2.2.1 500 ⟨"OK", []⟩ (by decide)).2⟩

/-- C7 counterexample: a lookup failure is not recorded as Failed.  Against
a store that already holds the matching record, a row whose lookup raises
is caught in place, treated as no-match, and its create succeeds, so the
run records Created (and silently duplicates the record) instead of
Failed. -/
theorem lookup_failure_not_failed_counterexample :
    (runSync false "R" [(⟨some (.str "Widget"), some (.str "C1"), none⟩, ⟨true, false⟩)]
        [⟨0, "Widget", "C1", "ea", ["R"]⟩]).outcomes = [SyncOutcome.Created] ∧
    ∀ reason, SyncOutcome.Created ≠ SyncOutcome.Failed reason := by
  refine ⟨by decide, ?_⟩
  intro reason h
  cases h

/-- C7 amended: a create or update call that fails with an HTTP error is
caught at the row boundary: the row is recorded as Failed, the store and
the counters are untouched by it, every subsequent row is still processed
to its own outcome from the same store, and the run completes the full
sequence (one outcome per row).  A failed lookup, by contrast, is caught
and logged but the row proceeds down the create path. -/
theorem partial_failure_isolation (relId : String) (pre post : List (Row × FailSpec))
    (row : Row) (fs : FailSpec) (store : Store) (reason : String)
    (hfail : (processRow false relId fs (runSync false relId pre store).store row).outcome
      = .Failed reason) :
    (runSync false relId (pre ++ (row, fs) :: post) store).outcomes
      = (runSync false relId pre store).outcomes
        ++ SyncOutcome.Failed reason
          :: (runSync false relId post (runSync false relId pre store).store).outcomes ∧
    (runSync false relId (pre ++ (row, fs) :: post) store).store
      = (runSync false relId post (runSync false relId pre store).store).store ∧
    (runSync false relId (pre ++ (row, fs) :: post) store).created
      = (runSync false relId pre store).created
        + (runSync false relId post (runSync false relId pre store).store).created ∧
    (runSync false relId (pre ++ (row, fs) :: post) store).updated
      = (runSync false relId pre store).updated
        + (runSync false relId post (runSync false relId pre store).store).updated ∧
    (runSync false relId (pre ++ (row, fs) :: post) store).outcomes.length
      = pre.length + 1 + post.length := by
  obtain ⟨hstore, hc0, hu0⟩ := processRow_failed_frame hfail
  obtain ⟨a1, a2, a3, a4, a5⟩ := runSync_append false relId pre ((row, fs) :: post) store
  refine ⟨?_, ?_, ?_, ?_, ?_⟩
  · rw [a2, runSync_cons, hfail, hstore]
  · rw [a1, runSync_cons, hstore]
  · rw [a4, runSync_cons, hc0, hstore, Nat.zero_add]
  · rw [a5, runSync_cons, hu0, hstore, Nat.zero_add]
  · rw [runSync_length]
    simp [List.length_append]
    omega

/-- Witness for C7 amended: three rows, the middle row's create fails. -/
theorem partial_failure_isolation_witness :
    ((processRow false "R" ⟨false, true⟩
        (runSync false "R" [(⟨some (.str "A"), some (.str "C1"), none⟩, noFail)] []).store
        ⟨some (.str "B"), some (.str "C2"), none⟩).outcome = SyncOutcome.Failed "create") ∧
    ((runSync false "R"
        ([(⟨some (.str "A"), some (.str "C1"), none⟩, noFail)]
          ++ (⟨some (.str "B"), some (.str "C2"), none⟩, (⟨false, true⟩ : FailSpec))
            :: [(⟨some (.str "C"), some (.str "C3"), none⟩, noFail)]) []).outcomes
      = (runSync false "R" [(⟨some (.str "A"), some (.str "C1"), none⟩, noFail)] []).outcomes
        ++ SyncOutcome.Failed "create"
          :: (runSync false "R" [(⟨some (.str "C"), some (.str "C3"), none⟩, noFail)]
              (runSync false "R" [(⟨some (.str "A"), some (.str "C1"), none⟩, noFail)] []).store).outcomes ∧
      (runSync false "R"
        ([(⟨some (.str "A"), some (.str "C1"), none⟩, noFail)]
          ++ (⟨some (.str "B"), some (.str "C2"), none⟩, (⟨false, true⟩ : FailSpec))
            :: [(⟨some (.str "C"), some (.str "C3"), none⟩, noFail)]) []).store
        = (runSync false "R" [(⟨some (.str "C"), some (.str "C3"), none⟩, noFail)]
            (runSync false "R" [(⟨some (.str "A"), some (.str "C1"), none⟩, noFail)] []).store).store ∧
      (runSync false "R"
        ([(⟨some (.str "A"), some (.str "C1"), none⟩, noFail)]
          ++ (⟨some (.str "B"), some (.str "C2"), none⟩, (⟨false, true⟩ : FailSpec))
            :: [(⟨some (.str "C"), some (.str "C3"), none⟩, noFail)]) []).created
        = (runSync false "R" [(⟨some (.str "A"), some (.str "C1"), none⟩, noFail)] []).created
          + (runSync false "R" [(⟨some (.str "C"), some (.str "C3"), none⟩, noFail)]
              (runSync false "R" [(⟨some (.str "A"), some (.str "C1"), none⟩, noFail)] []).store).created ∧
      (runSync false "R"
        ([(⟨some (.str "A"), some (.str "C1"), none⟩, noFail)]
          ++ (⟨some (.str "B"), some (.str "C2"), none⟩, (⟨false, true⟩ : FailSpec))
            :: [(⟨some (.str "C"), some (.str "C3"), none⟩, noFail)]) []).updated
        = (runSync false "R" [(⟨some (.str "A"), some (.str "C1"), none⟩, noFail)] []).updated
          + (runSync false "R" [(⟨some (.str "C"), some (.str "C3"), none⟩, noFail)]
              (runSync false "R" [(⟨some (.str "A"), some (.str "C1"), none⟩, noFail)] []).store).updated ∧
      (runSync false "R"
        ([(⟨some (.str "A"), some (.str "C1"), none⟩, noFail)]
          ++ (⟨some (.str "B"), some (.str "C2"), none⟩, (⟨false, true⟩ : FailSpec))
            :: [(⟨some (.str "C"), some (.str "C3"), none⟩, noFail)]) []).outcomes.length
        = 1 + 1 + 1) :=
  ⟨by decide, partial_failure_isolation "R" [(⟨some (.str "A"), some (.str "C1"), none⟩, noFail)]
    [(⟨some (.str "C"), some (.str "C3"), none⟩, noFail)] ⟨some (.str "B"), some (.str "C2"), none⟩ ⟨false, true⟩ []
    "create" (by decide)⟩

/-- C8 counterexample: a row whose identity cells are absent is not
rejected.  The sheet is read with `dtype=str` and `NaN` is never replaced
by `None`, so an empty cell passes the `is not None` guard and
`str(nan).strip()` extracts the non-blank string "nan"; the row then
issues a lookup on Item_Code = "nan" and a create, ending Created rather
than SkippedInvalid. -/
theorem absent_cells_not_rejected_counterexample :
    rowName ⟨some .nan, some .nan, none⟩ = "nan" ∧
    rowCode ⟨some .nan, some .nan, none⟩ = "nan" ∧
    (processRow false "R" noFail [] ⟨some .nan, some .nan, none⟩).outcome
      = SyncOutcome.Created ∧
    (processRow false "R" noFail [] ⟨some .nan, some .nan, none⟩).effects
      = [Effect.lookupReq "Item_Code" "nan",
         Effect.createReq (createPayload "nan" "nan" "" "R")] ∧
    SyncOutcome.Created ≠ SyncOutcome.SkippedInvalid := by
  refine ⟨by decide, by decide, by decide, by decide, by decide⟩

/-- C8 amended: a row whose identity fields are both blank after trimming
(a blank or whitespace-only cell, or an unmapped identity column) is
rejected before any store traffic: its outcome is SkippedInvalid, no
lookup, create or update request is issued, the store is untouched, and
processing is a total function (no exception).  An absent (empty, `NaN`)
identity cell, by contrast, stringifies to "nan" and is not rejected. -/
theorem invalid_row_rejected (d : Bool) (relId : String) (fs : FailSpec)
    (store : Store) (row : Row) (hn : rowName row = "") (hc : rowCode row = "") :
    processRow d relId fs store row = ⟨.SkippedInvalid, store, [], 0, 0⟩ := by
  apply processRow_invalid
  simp [rowValid, hn, hc]

/-- Witness for C8 amended: a whitespace-only name cell with an unmapped
code column. -/
theorem invalid_row_rejected_witness :
    rowName ⟨some (.str "   "), none, some (.str "kg")⟩ = "" ∧
    rowCode ⟨some (.str "   "), none, some (.str "kg")⟩ = "" ∧
    processRow false "R" noFail [] ⟨some (.str "   "), none, some (.str "kg")⟩
      = ⟨.SkippedInvalid, [], [], 0, 0⟩ :=
  ⟨by decide, by decide,
    invalid_row_rejected false "R" noFail [] ⟨some (.str "   "), none, some (.str "kg")⟩
      (by decide) (by decide)⟩

/-- C9: With the dry-run flag set, a full pass computes and prints the
intended create and update payloads (the dry effects) but issues no create
and no update call, leaves both counters at zero, and the store after the
run equals the store before it. -/
theorem dry_run_no_mutation (relId : String) (rows : List (Row × FailSpec))
    (store : Store) :
    (runSync true relId rows store).store = store ∧
    (runSync true relId rows store).created = 0 ∧
    (runSync true relId rows store).updated = 0 ∧
    ∀ e ∈ (runSync true relId rows store).effects, isMutationReq e = false := by
  induction rows generalizing store with
  | nil => exact ⟨rfl, rfl, rfl, by intro e he; cases he⟩
  | cons rf rest ih =>
    obtain ⟨row, fs⟩ := rf
    obtain ⟨h1, h2, h3, h4⟩ := processRow_dry relId fs store row
    obtain ⟨i1, i2, i3, i4⟩ := ih (processRow true relId fs store row).store
    rw [runSync_cons]
    refine ⟨?_, ?_, ?_, ?_⟩
    · rw [i1, h1]
    · rw [h2, i2]
    · rw [h3, i3]
    · intro e he
      rcases List.mem_append.mp he with h | h
      · exact h4 e h
      · exact i4 e h

/-- Witness for C9: a dry run over one row against the empty store. -/
theorem dry_run_no_mutation_witness :
    (runSync true "R" [(⟨some (.str "Widget"), some (.str "W-100"), none⟩, noFail)] []).store = [] ∧
    (runSync true "R" [(⟨some (.str "Widget"), some (.str "W-100"), none⟩, noFail)] []).created = 0 ∧
    (runSync true "R" [(⟨some (.str "Widget"), some (.str "W-100"), none⟩, noFail)] []).updated = 0 ∧
    ∀ e ∈ (runSync true "R" [(⟨some (.str "Widget"), some (.str "W-100"), none⟩, noFail)] []).effects,
      isMutationReq e = false :=
  dry_run_no_mutation "R" [(⟨some (.str "Widget"), some (.str "W-100"), none⟩, noFail)] []

/-- C10 counterexample: `_as_list` strips a scalar before wrapping it, so
the scalar " x " maps to ["x"], not to [str(v)] = [" x "]; and pb.py's
`rec.get("Form") or []` collapses a falsy scalar such as the empty string
to [], so the prior value is not wrapped into a one-element list. -/
theorem as_list_strip_counterexample :
    _as_list (.scalar (.str " x ")) = ["x"] ∧ (" x " : String) ≠ "x" ∧
    pbFormList (.scalar (.str "")) = [] :=
  ⟨by decide, by decide, by decide⟩

/-- C10 amended: `_as_list` maps None and blank values to [], a list to its
non-blank elements stringified (kept verbatim), and any other scalar to the
singleton holding its stripped rendering; pb.py wraps a truthy non-list
Form value into a one-element list and collapses falsy values to []; the
update.py merge is total on every field value and either leaves the store
alone or appends the target id to the coerced list, so a scalar-valued
relation field never raises and a non-blank prior value is preserved. -/
theorem as_list_scalar_handling :
    (_as_list (.scalar .null) = []) ∧
    (∀ v, pyStrip (pyStrScalar v) = "" → _as_list (.scalar v) = []) ∧
    (∀ es, _as_list (.arr es) = (es.map pyStrScalar).filter (fun s => pyStrip s != "")) ∧
    (∀ v, v ≠ JScalar.null → pyStrip (pyStrScalar v) ≠ "" →
      _as_list (.scalar v) = [pyStrip (pyStrScalar v)]) ∧
    (∀ es, pbFormList (.arr es) = es) ∧
    (∀ v, pyTruthy (.scalar v) = true → pbFormList (.scalar v) = [v]) ∧
    (∀ fv, pyTruthy fv = false → pbFormList fv = []) ∧
    (∀ fv x, updateMergeStep fv x = none ∨
      updateMergeStep fv x = some (_as_list fv ++ [x])) := by
  refine ⟨rfl, ?_, fun es => rfl, ?_, ?_, ?_, ?_, ?_⟩
  · intro v hv
    cases v with
    | null => rfl
    | str s => simp [_as_list, hv]
    | num n => simp [_as_list, hv]
    | bool b => simp [_as_list, hv]
  · intro v hnull hv
    cases v with
    | null => exact absurd rfl hnull
    | str s => simp [_as_list, hv]
    | num n => simp [_as_list, hv]
    | bool b => simp [_as_list, hv]
  · intro es
    cases es with
    | nil => rfl
    | cons e es' => rfl
  · intro v hv
    simp [pbFormList, hv]
  · intro fv hv
    simp [pbFormList, hv]
  · intro fv x
    by_cases hx : x ∈ _as_list fv
    · left
      simp [updateMergeStep, mergeRelation, hx]
    · right
      simp [updateMergeStep, mergeRelation, hx]

/-- Witness for C10 amended: the stripped-scalar branch at " x ". -/
theorem as_list_scalar_handling_witness :
    JScalar.str " x " ≠ JScalar.null ∧
    pyStrip (pyStrScalar (JScalar.str " x ")) ≠ "" ∧
    _as_list (.scalar (.str " x ")) = [pyStrip (pyStrScalar (JScalar.str " x "))] :=
  ⟨by decide, by decide,
    as_list_scalar_handling.2.2.2.1 (JScalar.str " x ") (by decide) (by decide)⟩

end PbSync
